import Mathlib

/-!
Shallow embedding of the easy-blob blob-storage service.

The model follows the two core source files:
- `src/blob-storage.ts` (class `BlobStorage`): the Express route handlers
  `POST /upload`, `GET /files`, `GET /blob/:id`, `DELETE /blob/:id`, the
  multer `diskStorage` filename callback, and the multer size/MIME gate.
- `src/database.ts` (class `Database`): the SQLite metadata table
  `blob_metadata` and the operations `insertBlob`, `getBlob`,
  `getAllBlobs`, `deleteBlob`.

State is explicit: a `ServerState` carries the metadata rows, the
AUTOINCREMENT counter, and the storage directory contents.  Fallible
substrate calls (filesystem write/unlink, SQLite run/get) take explicit
Boolean fault flags so that each failure branch of the handlers can be
exercised.
-/

namespace EasyBlob

/-- One row of the SQLite table `blob_metadata` (src/database.ts):
`id INTEGER PRIMARY KEY AUTOINCREMENT, original_name TEXT, mime_type TEXT,
path TEXT, upload_timestamp TEXT`.  `path` is the stored on-disk filename,
`upload_timestamp` the ISO-8601 string produced by `new Date().toISOString()`. -/
structure BlobRow where
  id : Nat
  original_name : String
  mime_type : String
  path : String
  upload_timestamp : String
deriving DecidableEq

/-- The file part of a multipart upload as multer hands it to the handler:
content bytes, `originalname`, and the client-declared `mimetype`. -/
structure UploadFile where
  bytes : List Nat
  originalname : String
  mimetype : String
deriving DecidableEq

/-- Full state of one `BlobStorage` instance: the configuration fields
(`maxFileSize`, `allowedMimeTypes`, `storageDir` from `BlobStorageOptions`),
the SQLite table contents (`rows`, with `nextId` the AUTOINCREMENT counter),
and the storage directory (`files`, newest write first so that writing an
already-used name shadows, i.e. overwrites, the older content). -/
structure ServerState where
  maxFileSize : Nat
  allowedMimeTypes : List String
  storageDir : String
  rows : List BlobRow
  nextId : Nat
  files : List (String × List Nat)
deriving DecidableEq

/-! ## Naming strategy (multer.diskStorage filename callback) -/

/-- Characters of the last path segment: everything after the final slash
(the whole list when there is no slash).  Helper for `extnameChars`. -/
def lastSegmentChars (cs : List Char) : List Char :=
  (cs.reverse.takeWhile (fun c => c != '/')).reverse

/-- Characters of Node `path.extname`: in the last path segment, the suffix
starting at the last dot, unless there is no dot, the only dot is the leading
character (hidden files like `.gitignore` have no extension), or the segment
is `..`. -/
def extnameChars (cs : List Char) : List Char :=
  let b := lastSegmentChars cs
  if b = ['.', '.'] then []
  else
    let pre := b.reverse.takeWhile (fun c => c != '.')
    if pre.length + 1 < b.length then '.' :: pre.reverse else []

/-- Model of Node `path.extname`. -/
def extname (s : String) : String :=
  String.mk (extnameChars s.data)

/-- The multer `diskStorage` filename callback of `BlobStorage`
(src/blob-storage.ts): `cb(null, Date.now() + path.extname(file.originalname))`.
JavaScript number-to-string coercion of the integer `Date.now()` yields its
decimal digits, modelled by `Nat.repr`. -/
def deriveStoredName (now : Nat) (originalname : String) : String :=
  Nat.repr now ++ extname originalname

/-- Model of `path.join(storageDir, storedName)` for the stored names this
service derives: they are nonempty, contain no separator and are not dot
segments (proved below), so the join is plain concatenation with one slash. -/
def joinPath (dir f : String) : String :=
  dir ++ "/" ++ f

/-- Absolute location of the physical file a blob is written to:
the storage directory joined with the derived stored name. -/
def storedFilePath (dir : String) (now : Nat) (originalname : String) : String :=
  joinPath dir (deriveStoredName now originalname)

/-! ## Validation gate (multer limits + fileFilter) -/

/-- Outcome of the multer gate applied to an incoming file. -/
inductive FileGate
  | ok
  | typeNotAllowed
  | tooLarge
deriving DecidableEq

/-- The `fileFilter` predicate of the multer instance (src/blob-storage.ts):
rejects exactly when `allowedMimeTypes.length > 0 &&
!allowedMimeTypes.includes(file.mimetype)`; `includes` is exact,
case-sensitive string equality. -/
def fileFilterRejects (allowed : List String) (mime : String) : Bool :=
  decide (allowed.length > 0) && !(allowed.contains mime)

/-- The multer `limits.fileSize` check: busboy flags `LIMIT_FILE_SIZE`
exactly when the received byte count exceeds the configured limit; a file of
exactly the limit passes. -/
def sizeExceeded (size limit : Nat) : Bool :=
  decide (size > limit)

/-- Combined multer gate.  The `fileFilter` runs when the file part starts,
before its body streams, so a disallowed type is reported even for an
oversized file; the size limit fires while the body streams. -/
def uploadGate (allowed : List String) (mime : String) (limit size : Nat) : FileGate :=
  if fileFilterRejects allowed mime then .typeNotAllowed
  else if sizeExceeded size limit then .tooLarge
  else .ok

/-! ## Metadata store primitives (src/database.ts) -/

/-- `Database.getBlob`: `SELECT * FROM blob_metadata WHERE id = ?`. -/
def findRow (rows : List BlobRow) (id : Int) : Option BlobRow :=
  rows.find? (fun r => ((r.id : Int)) == id)

/-- Relation ordering rows by `upload_timestamp` descending, the sort key of
`Database.getAllBlobs` (`ORDER BY upload_timestamp DESC`; SQLite TEXT
comparison on the ISO strings is lexicographic). -/
def tsGe (a b : BlobRow) : Prop :=
  b.upload_timestamp ≤ a.upload_timestamp

instance : DecidableRel tsGe :=
  fun a b => inferInstanceAs (Decidable (b.upload_timestamp ≤ a.upload_timestamp))

instance : IsTotal BlobRow tsGe :=
  ⟨fun a b => le_total b.upload_timestamp a.upload_timestamp⟩

instance : IsTrans BlobRow tsGe :=
  ⟨fun _ _ _ hab hbc => le_trans hbc hab⟩

/-- `Database.getAllBlobs`:
`SELECT * FROM blob_metadata ORDER BY upload_timestamp DESC`. -/
def getAllBlobs (rows : List BlobRow) : List BlobRow :=
  List.insertionSort tsGe rows

/-! ## Filesystem primitives -/

/-- Content of the file with the given stored name, if present
(newest write shadows older writes to the same name). -/
def lookupFile (files : List (String × List Nat)) (nm : String) : Option (List Nat) :=
  (files.find? (fun p => p.1 == nm)).map (fun p => p.2)

/-- `fs.unlink`: removal of every entry carrying the stored name. -/
def removeFile (files : List (String × List Nat)) (nm : String) : List (String × List Nat) :=
  files.filter (fun p => !(p.1 == nm))

/-! ## Blob id validation (GET/DELETE /blob/:id) -/

/-- Decimal digit value of a character, `none` for non-digits. -/
def digitVal (c : Char) : Option Nat :=
  if '0' ≤ c ∧ c ≤ '9' then some (c.toNat - '0'.toNat) else none

/-- Hexadecimal digit value of a character, `none` for non-digits. -/
def hexVal (c : Char) : Option Nat :=
  if '0' ≤ c ∧ c ≤ '9' then some (c.toNat - '0'.toNat)
  else if 'a' ≤ c ∧ c ≤ 'f' then some (c.toNat - 'a'.toNat + 10)
  else if 'A' ≤ c ∧ c ≤ 'F' then some (c.toNat - 'A'.toNat + 10)
  else none

/-- Longest prefix of digits of the given base, folded to its value;
`none` when there is no digit at all (JavaScript `NaN`). -/
def parseDigits (valOf : Char → Option Nat) (base : Nat) (cs : List Char) : Option Nat :=
  let ds := cs.takeWhile (fun c => (valOf c).isSome)
  if ds.isEmpty then none
  else some (ds.foldl (fun acc c => acc * base + ((valOf c).getD 0)) 0)

/-- Unsigned part of JavaScript `parseInt` with unspecified radix:
a `0x`/`0X` prefix selects hexadecimal, otherwise decimal. -/
def parseIntBody (cs : List Char) : Option Nat :=
  match cs with
  | '0' :: 'x' :: rest => parseDigits hexVal 16 rest
  | '0' :: 'X' :: rest => parseDigits hexVal 16 rest
  | rest => parseDigits digitVal 10 rest

/-- Model of JavaScript `parseInt(s)` as applied to `req.params.id`:
skip leading whitespace, read an optional sign, then the longest digit
prefix; `none` models `NaN`.  Everything after the digit prefix (such as
the `.5` of `"1.5"`) is ignored. -/
def parseIntJS (s : String) : Option Int :=
  let cs := s.data.dropWhile (fun c => c == ' ' || c == '\t' || c == '\n' || c == '\r')
  match cs with
  | '-' :: rest => (parseIntBody rest).map (fun n => -(n : Int))
  | '+' :: rest => (parseIntBody rest).map (fun n => (n : Int))
  | rest => (parseIntBody rest).map (fun n => (n : Int))

/-- The id validation shared by `GET /blob/:id` and `DELETE /blob/:id`
(src/blob-storage.ts): `blobId = parseInt(req.params.id)` followed by
`isNaN(blobId) || blobId <= 0 || !Number.isInteger(blobId)`.  A non-`NaN`
`parseInt` result is always an integer, so the `Number.isInteger` test never
rejects anything. -/
def validateBlobId (s : String) : Option Int :=
  match parseIntJS s with
  | none => none
  | some n => if n ≤ 0 then none else some n

/-! ## Route handlers (src/blob-storage.ts) -/

/-- Outcome of `POST /upload`, one constructor per response branch. -/
inductive UploadOutcome
  | ok (id : Nat)
  | noFile
  | fileTooLarge
  | typeRejected (mime : String)
  | writeFailed
  | storeFailed
deriving DecidableEq

/-- The `POST /upload` handler.  `now` is `Date.now()` at the filename
callback, `ts` the `new Date().toISOString()` of `insertBlob`.  `writeFails`
injects a filesystem failure of the multer disk write (multer then reports
an error and removes any partial file, so the state is unchanged);
`insertFails` injects a SQLite failure of `insertBlob` (the handler answers
500 without removing the already-written file). -/
def uploadRoute (s : ServerState) (file : Option UploadFile) (now : Nat) (ts : String)
    (writeFails insertFails : Bool) : UploadOutcome × ServerState :=
  match file with
  | none => (.noFile, s)
  | some f =>
    match uploadGate s.allowedMimeTypes f.mimetype s.maxFileSize f.bytes.length with
    | .typeNotAllowed => (.typeRejected f.mimetype, s)
    | .tooLarge => (.fileTooLarge, s)
    | .ok =>
      let stored := deriveStoredName now f.originalname
      if writeFails then (.writeFailed, s)
      else
        let s1 : ServerState := { s with files := (stored, f.bytes) :: s.files }
        if insertFails then (.storeFailed, s1)
        else
          let row : BlobRow :=
            { id := s.nextId, original_name := f.originalname, mime_type := f.mimetype,
              path := stored, upload_timestamp := ts }
          (.ok s.nextId, { s1 with rows := s1.rows ++ [row], nextId := s.nextId + 1 })

/-- Outcome of `GET /blob/:id`, one constructor per response branch. -/
inductive RetrieveOutcome
  | invalidId
  | dbError
  | notFound
  | fileMissing
  | ok (bytes : List Nat) (contentType : String)
deriving DecidableEq

/-- Content types express `res.sendFile` derives from a file extension
(via the `send`/`mime-db` dependency); only the entries relevant here are
listed, with the registry default for anything else.  The repository test
suite pins the `.txt` entry: it expects `text/plain` for a served `.txt`
file. -/
def mimeLookup (ext : String) : String :=
  if ext == ".txt" then "text/plain"
  else if ext == ".html" then "text/html"
  else if ext == ".json" then "application/json"
  else if ext == ".png" then "image/png"
  else if ext == ".jpg" then "image/jpeg"
  else if ext == ".pdf" then "application/pdf"
  else "application/octet-stream"

/-- The Content-Type header of `res.sendFile(row.path, { root })`: express
derives it from the extension of the sent path; the handler never sets it
from the metadata row. -/
def sendFileContentType (storedName : String) : String :=
  mimeLookup (extname storedName)

/-- Body of `GET /blob/:id` after id validation: `Database.getBlob`, then
`fs.access` on `path.join(storageDir, row.path)`, then `res.sendFile`.
`dbFails` injects a SQLite error of `getBlob`. -/
def retrieveById (s : ServerState) (id : Int) (dbFails : Bool) :
    RetrieveOutcome × ServerState :=
  if dbFails then (.dbError, s)
  else
    match findRow s.rows id with
    | none => (.notFound, s)
    | some row =>
      match lookupFile s.files row.path with
      | none => (.fileMissing, s)
      | some bs => (.ok bs (sendFileContentType row.path), s)

/-- The `GET /blob/:id` handler: id validation, then `retrieveById`. -/
def getBlobRoute (s : ServerState) (idParam : String) (dbFails : Bool) :
    RetrieveOutcome × ServerState :=
  match validateBlobId idParam with
  | none => (.invalidId, s)
  | some id => retrieveById s id dbFails

/-- The HTTP status code and error body each `GET /blob/:id` branch sends
(src/blob-storage.ts): the two 404 branches carry different error strings,
which is how a caller tells them apart. -/
def httpOfRetrieve : RetrieveOutcome → Nat × String
  | .invalidId => (400, "Invalid blob ID")
  | .dbError => (500, "Server error")
  | .notFound => (404, "Blob not found")
  | .fileMissing => (404, "File not found or inaccessible")
  | .ok _ _ => (200, "")

/-- Outcome of `DELETE /blob/:id`, one constructor per response branch. -/
inductive DeleteOutcome
  | invalidId
  | dbError
  | notFound
  | unlinkFailed
  | rowDeleteFailed
  | rowVanished
  | deleted
deriving DecidableEq

/-- The `DELETE /blob/:id` handler: id validation, `Database.getBlob`,
`fs.unlink` of the physical file, then `Database.deleteBlob`.  `unlinkFails`
injects a filesystem failure of the unlink (the unlink also fails when no
file with the stored name exists); `rowDeleteFails` injects a SQLite failure
of `deleteBlob`. -/
def deleteBlobRoute (s : ServerState) (idParam : String)
    (dbFails unlinkFails rowDeleteFails : Bool) : DeleteOutcome × ServerState :=
  match validateBlobId idParam with
  | none => (.invalidId, s)
  | some id =>
    if dbFails then (.dbError, s)
    else
      match findRow s.rows id with
      | none => (.notFound, s)
      | some row =>
        if unlinkFails || (lookupFile s.files row.path).isNone then (.unlinkFailed, s)
        else
          let s1 : ServerState := { s with files := removeFile s.files row.path }
          if rowDeleteFails then (.rowDeleteFailed, s1)
          else
            let existed := s1.rows.any (fun r => ((r.id : Int)) == id)
            let s2 : ServerState :=
              { s1 with rows := s1.rows.filter (fun r => !(((r.id : Int)) == id)) }
            if existed then (.deleted, s2) else (.rowVanished, s2)

/-- Outcome of `GET /files`. -/
inductive FilesOutcome
  | dbError
  | ok (rows : List BlobRow)
deriving DecidableEq

/-- The `GET /files` handler: `Database.getAllBlobs`, answered as JSON.
`dbFails` injects a SQLite error. -/
def getFilesRoute (s : ServerState) (dbFails : Bool) : FilesOutcome × ServerState :=
  if dbFails then (.dbError, s) else (.ok (getAllBlobs s.rows), s)

/-- Fold of fault-free `POST /upload` calls, one per list entry
(file, `Date.now()` value, ISO timestamp). -/
def createMany (s : ServerState) : List (UploadFile × Nat × String) → ServerState
  | [] => s
  | u :: us => createMany ((uploadRoute s (some u.1) u.2.1 u.2.2 false false).2) us

/-- The metadata row a fault-free `POST /upload` inserts: the original
name, the declared MIME type, the derived stored name and the ISO
timestamp, under the freshly allocated id. -/
def insertedRow (s : ServerState) (f : UploadFile) (now : Nat) (ts : String) : BlobRow :=
  { id := s.nextId, original_name := f.originalname, mime_type := f.mimetype,
    path := deriveStoredName now f.originalname, upload_timestamp := ts }

/-! ## Concrete sample data for closed evaluations -/

/-- A freshly constructed `BlobStorage` with an empty database and an empty
storage directory, default 10MB size limit and no MIME restriction. -/
def freshState : ServerState :=
  { maxFileSize := 10485760, allowedMimeTypes := [], storageDir := "uploads",
    rows := [], nextId := 1, files := [] }

/-- Sample upload: a one-byte `.txt` file. -/
def fileA : UploadFile :=
  { bytes := [1], originalname := "a.txt", mimetype := "text/plain" }

/-- Second sample upload with different content and a different original
name but the same extension. -/
def fileB : UploadFile :=
  { bytes := [2], originalname := "b.txt", mimetype := "text/plain" }

/-- Sample upload whose declared MIME type disagrees with what the `.txt`
extension maps to in the MIME registry. -/
def jsonDeclaredFile : UploadFile :=
  { bytes := [104, 105], originalname := "a.txt", mimetype := "application/json" }

/-- Sample metadata row pointing at stored name `100.txt`. -/
def storedRow : BlobRow :=
  { id := 1, original_name := "a.txt", mime_type := "text/plain",
    path := "100.txt", upload_timestamp := "2025-06-16T00:00:00.000Z" }

/-- Sample state holding exactly `storedRow` together with its backing
file. -/
def oneRowState : ServerState :=
  { maxFileSize := 10485760, allowedMimeTypes := [], storageDir := "uploads",
    rows := [storedRow], nextId := 2, files := [("100.txt", [1])] }

/-! ## Helper lemmas -/

theorem fileFilterRejects_iff (allowed : List String) (mime : String) :
    fileFilterRejects allowed mime = true ↔ (allowed ≠ [] ∧ mime ∉ allowed) := by
  simp [fileFilterRejects, List.length_pos]

theorem sizeExceeded_iff (size limit : Nat) :
    sizeExceeded size limit = true ↔ size > limit := by
  simp [sizeExceeded]

theorem lookupFile_removeFile (files : List (String × List Nat)) (nm : String) :
    lookupFile (removeFile files nm) nm = none := by
  unfold lookupFile removeFile
  rw [Option.map_eq_none']
  rw [List.find?_eq_none]
  intro x hx
  have h2 := (List.mem_filter.mp hx).2
  simp only [Bool.not_eq_true', beq_eq_false_iff_ne, ne_eq] at h2
  simp only [beq_iff_eq]
  exact h2

theorem retrieveById_preserves (s : ServerState) (id : Int) (b : Bool) :
    (retrieveById s id b).2 = s := by
  unfold retrieveById
  split
  · rfl
  · split
    · rfl
    · split <;> rfl

/-! ## Claims -/

/-- C10: `retrieve(id)` (with or without prior id validation) and `list()`
are read-only: whatever the state and input, the route returns it unchanged,
in every branch, including the `NotFound`, `FileMissing`, `InvalidId` and
injected-error branches. -/
theorem reads_leave_state_unchanged (s : ServerState) (p : String) (id : Int) (b : Bool) :
    (getBlobRoute s p b).2 = s
    ∧ (retrieveById s id b).2 = s
    ∧ (getFilesRoute s b).2 = s := by
  refine ⟨?_, retrieveById_preserves s id b, ?_⟩
  · unfold getBlobRoute
    split
    · rfl
    · exact retrieveById_preserves s _ b
  · unfold getFilesRoute
    split <;> rfl

/-- C2: the code, not the claim, is at fault.  Two uploads arriving in the
same `Date.now()` millisecond with `.txt` originals derive the same stored
name `1727654321000.txt`; uploading `fileA` (bytes `[1]`) and then `fileB`
(bytes `[2]`) in the same tick makes blob id 1 serve bytes `[2]`: the second
write silently overwrote the first blob while its row still points at the
shared stored name. -/
theorem same_tick_uploads_collide :
    deriveStoredName 1727654321000 "a.txt" = "1727654321000.txt"
    ∧ deriveStoredName 1727654321000 "b.txt" = "1727654321000.txt"
    ∧ (retrieveById
        (uploadRoute
          (uploadRoute freshState (some fileA) 1727654321000
            "2025-06-16T00:00:00.000Z" false false).2
          (some fileB) 1727654321000 "2025-06-16T00:00:01.000Z" false false).2
        1 false).1 = RetrieveOutcome.ok [2] "text/plain"
    ∧ fileA.bytes = [1] := by
  exact ⟨by decide, by decide, by decide, rfl⟩

/-- C3: the code, not the claim, is at fault.  `parseInt` truncates the
fractional input `"1.5"` to `1`, so the dead `Number.isInteger` check never
fires and the metadata lookup runs (here answering `Blob not found` rather
than `Invalid blob ID`, for both `GET` and `DELETE`); non-numeric and
non-positive inputs are rejected as the claim states. -/
theorem fractional_id_reaches_lookup :
    validateBlobId "1.5" = some 1
    ∧ validateBlobId "3abc" = some 3
    ∧ (getBlobRoute freshState "1.5" false).1 = RetrieveOutcome.notFound
    ∧ (deleteBlobRoute freshState "1.5" false false false).1 = DeleteOutcome.notFound
    ∧ validateBlobId "abc" = none
    ∧ validateBlobId "0" = none
    ∧ validateBlobId "-3" = none := by
  decide

/-- C1 counterexample: create with declared MIME type `application/json`
but original name `a.txt`.  The metadata row stores `application/json`,
yet `retrieve` serves the bytes with Content-Type `text/plain`, the type
express derives from the stored name extension, not the row type. -/
theorem retrieve_content_type_counterexample :
    (uploadRoute freshState (some jsonDeclaredFile) 5
        "2025-06-16T00:00:00.000Z" false false).1 = UploadOutcome.ok 1
    ∧ (findRow (uploadRoute freshState (some jsonDeclaredFile) 5
        "2025-06-16T00:00:00.000Z" false false).2.rows 1).map BlobRow.mime_type
      = some "application/json"
    ∧ (retrieveById (uploadRoute freshState (some jsonDeclaredFile) 5
        "2025-06-16T00:00:00.000Z" false false).2 1 false).1
      = RetrieveOutcome.ok [104, 105] "text/plain"
    ∧ ("text/plain" : String) ≠ "application/json" := by
  decide

/-- C4: the multer gate accepts exactly when the size is at most the limit
(an exactly-limit payload passes) and the declared type is allowed; it
answers `tooLarge` exactly when the size exceeds the limit (for a type that
passes the filter, which runs first), and `typeNotAllowed` exactly when the
allow-list is non-empty and misses the declared type under exact
case-sensitive comparison; an empty allow-list never rejects a type. -/
theorem uploadGate_characterization (allowed : List String) (mime : String)
    (limit size : Nat) :
    (uploadGate allowed mime limit size = FileGate.ok ↔
      (size ≤ limit ∧ (allowed = [] ∨ mime ∈ allowed)))
    ∧ (uploadGate allowed mime limit size = FileGate.tooLarge ↔
      (size > limit ∧ (allowed = [] ∨ mime ∈ allowed)))
    ∧ (uploadGate allowed mime limit size = FileGate.typeNotAllowed ↔
      (allowed ≠ [] ∧ mime ∉ allowed)) := by
  unfold uploadGate
  split_ifs with h1 h2
  · have hT := (fileFilterRejects_iff allowed mime).mp h1
    refine ⟨⟨fun hx => by simp at hx, fun hx => ?_⟩,
            ⟨fun hx => by simp at hx, fun hx => ?_⟩,
            ⟨fun _ => hT, fun _ => rfl⟩⟩
    · exact False.elim (by rcases hx.2 with hd | hd
                           exacts [hT.1 hd, hT.2 hd])
    · exact False.elim (by rcases hx.2 with hd | hd
                           exacts [hT.1 hd, hT.2 hd])
  · have hT : ¬ (allowed ≠ [] ∧ mime ∉ allowed) := fun hx =>
      h1 ((fileFilterRejects_iff allowed mime).mpr hx)
    have hok : allowed = [] ∨ mime ∈ allowed := by tauto
    have hs := (sizeExceeded_iff size limit).mp h2
    refine ⟨⟨fun hx => by simp at hx, fun hx => absurd hx.1 (by omega)⟩,
            ⟨fun _ => ⟨hs, hok⟩, fun _ => rfl⟩,
            ⟨fun hx => by simp at hx, fun hx => absurd hx hT⟩⟩
  · have hT : ¬ (allowed ≠ [] ∧ mime ∉ allowed) := fun hx =>
      h1 ((fileFilterRejects_iff allowed mime).mpr hx)
    have hok : allowed = [] ∨ mime ∈ allowed := by tauto
    have hs : ¬ size > limit := fun hx =>
      h2 ((sizeExceeded_iff size limit).mpr hx)
    refine ⟨⟨fun _ => ⟨by omega, hok⟩, fun _ => rfl⟩,
            ⟨fun hx => by simp at hx, fun hx => absurd hx.1 hs⟩,
            ⟨fun hx => by simp at hx, fun hx => absurd hx hT⟩⟩

/-- C4 witness: a 20-byte payload against a 10-byte limit and a
`text/plain` declaration against an `image/png` allow-list, instantiating
the gate characterization. -/
theorem uploadGate_characterization_witness :
    (uploadGate ["image/png"] "text/plain" 10 20 = FileGate.ok ↔
      (20 ≤ 10 ∧ ((["image/png"] : List String) = [] ∨ "text/plain" ∈ ["image/png"])))
    ∧ (uploadGate ["image/png"] "text/plain" 10 20 = FileGate.tooLarge ↔
      (20 > 10 ∧ ((["image/png"] : List String) = [] ∨ "text/plain" ∈ ["image/png"])))
    ∧ (uploadGate ["image/png"] "text/plain" 10 20 = FileGate.typeNotAllowed ↔
      ((["image/png"] : List String) ≠ [] ∧ "text/plain" ∉ ["image/png"])) :=
  uploadGate_characterization ["image/png"] "text/plain" 10 20

/-- C5: `DELETE /blob/:id` on an existing record unlinks the physical file
strictly before touching the metadata row.  If the unlink fails the route
answers the failure and the state is untouched: the row still exists and
still points at its stored name.  If the unlink succeeds and the row
deletion then fails, the file is already gone while the rows are unchanged,
witnessing the delete-then-delete ordering. -/
theorem remove_deletes_file_before_row
    (s : ServerState) (p : String) (id : Int) (row : BlobRow) (bs : List Nat)
    (hid : validateBlobId p = some id)
    (hrow : findRow s.rows id = some row)
    (hfile : lookupFile s.files row.path = some bs) :
    deleteBlobRoute s p false true false = (DeleteOutcome.unlinkFailed, s)
    ∧ findRow (deleteBlobRoute s p false true false).2.rows id = some row
    ∧ (deleteBlobRoute s p false false true).1 = DeleteOutcome.rowDeleteFailed
    ∧ (deleteBlobRoute s p false false true).2.rows = s.rows
    ∧ lookupFile (deleteBlobRoute s p false false true).2.files row.path = none := by
  have hnone : (lookupFile s.files row.path).isNone = false := by
    rw [hfile]
    rfl
  have h1 : deleteBlobRoute s p false true false = (DeleteOutcome.unlinkFailed, s) := by
    simp [deleteBlobRoute, hid, hrow]
  have h2 : deleteBlobRoute s p false false true
      = (DeleteOutcome.rowDeleteFailed, { s with files := removeFile s.files row.path }) := by
    simp [deleteBlobRoute, hid, hrow, hnone]
  refine ⟨h1, by rw [h1]; exact hrow, by rw [h2], by rw [h2], ?_⟩
  rw [h2]
  exact lookupFile_removeFile s.files row.path

/-- C5 witness: the one-row sample state with its backing file, under a
failing unlink and under a failing row deletion. -/
theorem remove_deletes_file_before_row_witness :
    deleteBlobRoute oneRowState "1" false true false = (DeleteOutcome.unlinkFailed, oneRowState)
    ∧ findRow (deleteBlobRoute oneRowState "1" false true false).2.rows 1 = some storedRow
    ∧ (deleteBlobRoute oneRowState "1" false false true).1 = DeleteOutcome.rowDeleteFailed
    ∧ (deleteBlobRoute oneRowState "1" false false true).2.rows = oneRowState.rows
    ∧ lookupFile (deleteBlobRoute oneRowState "1" false false true).2.files storedRow.path
      = none :=
  remove_deletes_file_before_row oneRowState "1" 1 storedRow [1]
    (by decide) (by decide) (by decide)

/-- C6: in `POST /upload`, a failing disk write yields the write-error
response and leaves the state untouched (no metadata row, no orphan row);
a failing `insertBlob` after a successful write yields the store-error
response with the rows unchanged while the already-written bytes stay on
disk under the derived stored name (orphan file, no rollback). -/
theorem create_failure_atomicity
    (s : ServerState) (f : UploadFile) (now : Nat) (ts : String) (insFlag : Bool)
    (hgate : uploadGate s.allowedMimeTypes f.mimetype s.maxFileSize f.bytes.length
      = FileGate.ok) :
    uploadRoute s (some f) now ts true insFlag = (UploadOutcome.writeFailed, s)
    ∧ (uploadRoute s (some f) now ts false true).1 = UploadOutcome.storeFailed
    ∧ (uploadRoute s (some f) now ts false true).2.rows = s.rows
    ∧ lookupFile (uploadRoute s (some f) now ts false true).2.files
        (deriveStoredName now f.originalname) = some f.bytes := by
  have hroute : uploadRoute s (some f) now ts false true
      = (UploadOutcome.storeFailed,
         { s with files := (deriveStoredName now f.originalname, f.bytes) :: s.files }) := by
    simp [uploadRoute, hgate]
  refine ⟨by simp [uploadRoute, hgate], by rw [hroute], by rw [hroute], ?_⟩
  rw [hroute]
  simp [lookupFile]

/-- C6 witness: uploading the sample `.txt` file into the fresh state under
an injected write failure and an injected insert failure. -/
theorem create_failure_atomicity_witness :
    uploadRoute freshState (some fileA) 100 "2025-06-16T00:00:00.000Z" true false
      = (UploadOutcome.writeFailed, freshState)
    ∧ (uploadRoute freshState (some fileA) 100 "2025-06-16T00:00:00.000Z" false true).1
      = UploadOutcome.storeFailed
    ∧ (uploadRoute freshState (some fileA) 100 "2025-06-16T00:00:00.000Z" false true).2.rows
      = freshState.rows
    ∧ lookupFile
        (uploadRoute freshState (some fileA) 100 "2025-06-16T00:00:00.000Z" false true).2.files
        (deriveStoredName 100 fileA.originalname) = some fileA.bytes :=
  create_failure_atomicity freshState fileA 100 "2025-06-16T00:00:00.000Z" false (by decide)

/-- C7: for a validated id, `GET /blob/:id` answers the no-row case and the
row-without-file case through two different outcomes — `Blob not found`
(no metadata row) versus `File not found or inaccessible` (orphan row) —
so a caller can tell a never-existing blob from a detected orphan row. -/
theorem retrieve_orphan_row_distinct
    (s : ServerState) (p : String) (id : Int)
    (hid : validateBlobId p = some id) :
    (findRow s.rows id = none → getBlobRoute s p false = (RetrieveOutcome.notFound, s))
    ∧ (∀ row, findRow s.rows id = some row → lookupFile s.files row.path = none →
        getBlobRoute s p false = (RetrieveOutcome.fileMissing, s))
    ∧ RetrieveOutcome.fileMissing ≠ RetrieveOutcome.notFound
    ∧ httpOfRetrieve RetrieveOutcome.fileMissing ≠ httpOfRetrieve RetrieveOutcome.notFound := by
  refine ⟨?_, ?_, by decide, by decide⟩
  · intro hnone
    simp [getBlobRoute, retrieveById, hid, hnone]
  · intro row hrow hfile
    simp [getBlobRoute, retrieveById, hid, hrow, hfile]

/-- C7 witness: instantiation at the one-row sample state and id `1`. -/
theorem retrieve_orphan_row_distinct_witness :
    (findRow oneRowState.rows 1 = none →
      getBlobRoute oneRowState "1" false = (RetrieveOutcome.notFound, oneRowState))
    ∧ (∀ row, findRow oneRowState.rows 1 = some row →
        lookupFile oneRowState.files row.path = none →
        getBlobRoute oneRowState "1" false = (RetrieveOutcome.fileMissing, oneRowState))
    ∧ RetrieveOutcome.fileMissing ≠ RetrieveOutcome.notFound
    ∧ httpOfRetrieve RetrieveOutcome.fileMissing ≠ httpOfRetrieve RetrieveOutcome.notFound :=
  retrieve_orphan_row_distinct oneRowState "1" 1 (by decide)

/-! ## Helpers for the round-trip claim -/

theorem find?_append_left_none {α : Type} (p : α → Bool) (l1 l2 : List α)
    (h : l1.find? p = none) : (l1 ++ l2).find? p = l2.find? p := by
  rw [List.find?_append, h, Option.none_or]

/-- C1 (amended): a fault-free create stores the client-declared MIME type
in the metadata row, and a subsequent retrieve of the returned id serves
exactly the uploaded bytes — but with the Content-Type express derives
from the stored name extension (`sendFileContentType`), not with the type
read back from the row. -/
theorem create_then_retrieve_roundtrip
    (s : ServerState) (f : UploadFile) (now : Nat) (ts : String)
    (hgate : uploadGate s.allowedMimeTypes f.mimetype s.maxFileSize f.bytes.length
      = FileGate.ok)
    (hids : ∀ r ∈ s.rows, r.id < s.nextId) :
    ∃ s2 : ServerState,
      uploadRoute s (some f) now ts false false = (UploadOutcome.ok s.nextId, s2)
      ∧ ∃ row : BlobRow,
          findRow s2.rows (s.nextId : Int) = some row
          ∧ row.mime_type = f.mimetype
          ∧ row.original_name = f.originalname
          ∧ row.path = deriveStoredName now f.originalname
          ∧ retrieveById s2 (s.nextId : Int) false
            = (RetrieveOutcome.ok f.bytes
                (sendFileContentType (deriveStoredName now f.originalname)), s2) := by
  have hroute : uploadRoute s (some f) now ts false false
      = (UploadOutcome.ok s.nextId,
         { s with files := (deriveStoredName now f.originalname, f.bytes) :: s.files,
                  rows := s.rows ++ [insertedRow s f now ts],
                  nextId := s.nextId + 1 }) := by
    simp [uploadRoute, insertedRow, hgate]
  have hfind :
      findRow (s.rows ++ [insertedRow s f now ts]) (s.nextId : Int)
        = some (insertedRow s f now ts) := by
    unfold findRow
    rw [find?_append_left_none]
    · simp [List.find?, insertedRow]
    · rw [List.find?_eq_none]
      intro r hr
      simp only [beq_iff_eq]
      intro hcast
      have h2 : r.id = s.nextId := by exact_mod_cast hcast
      exact absurd h2 (Nat.ne_of_lt (hids r hr))
  have hlook : lookupFile
      ((deriveStoredName now f.originalname, f.bytes) :: s.files)
      (deriveStoredName now f.originalname) = some f.bytes := by
    unfold lookupFile
    rw [List.find?_cons_of_pos _ (by simp)]
    rfl
  refine ⟨_, hroute, _, hfind, rfl, rfl, rfl, ?_⟩
  simp only [retrieveById, Bool.false_eq_true, if_false, hfind]
  rw [show (insertedRow s f now ts).path = deriveStoredName now f.originalname from rfl]
  rw [hlook]

/-- C1 witness: uploading the `.txt` file declared as `application/json`
into the fresh state and retrieving it again. -/
theorem create_then_retrieve_roundtrip_witness :
    ∃ s2 : ServerState,
      uploadRoute freshState (some jsonDeclaredFile) 5 "2025-06-16T00:00:00.000Z" false false
        = (UploadOutcome.ok freshState.nextId, s2)
      ∧ ∃ row : BlobRow,
          findRow s2.rows (freshState.nextId : Int) = some row
          ∧ row.mime_type = jsonDeclaredFile.mimetype
          ∧ row.original_name = jsonDeclaredFile.originalname
          ∧ row.path = deriveStoredName 5 jsonDeclaredFile.originalname
          ∧ retrieveById s2 (freshState.nextId : Int) false
            = (RetrieveOutcome.ok jsonDeclaredFile.bytes
                (sendFileContentType (deriveStoredName 5 jsonDeclaredFile.originalname)), s2) :=
  create_then_retrieve_roundtrip freshState jsonDeclaredFile 5 "2025-06-16T00:00:00.000Z"
    (by decide) (fun r hr => absurd hr (List.not_mem_nil r))

/-! ## Helpers for the listing claim -/

theorem uploadRoute_preserves_config (s : ServerState) (file : Option UploadFile)
    (now : Nat) (ts : String) (w i : Bool) :
    (uploadRoute s file now ts w i).2.allowedMimeTypes = s.allowedMimeTypes
    ∧ (uploadRoute s file now ts w i).2.maxFileSize = s.maxFileSize := by
  cases file with
  | none => exact ⟨rfl, rfl⟩
  | some f =>
    simp only [uploadRoute]
    cases hg : uploadGate s.allowedMimeTypes f.mimetype s.maxFileSize f.bytes.length <;>
      cases w <;> cases i <;> simp

theorem uploadRoute_ok_rows_length (s : ServerState) (f : UploadFile) (now : Nat) (ts : String)
    (hgate : uploadGate s.allowedMimeTypes f.mimetype s.maxFileSize f.bytes.length
      = FileGate.ok) :
    (uploadRoute s (some f) now ts false false).2.rows.length = s.rows.length + 1 := by
  simp [uploadRoute, hgate]

theorem createMany_rows_length (s : ServerState) (us : List (UploadFile × Nat × String))
    (hok : ∀ u ∈ us, uploadGate s.allowedMimeTypes u.1.mimetype s.maxFileSize
      u.1.bytes.length = FileGate.ok) :
    (createMany s us).rows.length = s.rows.length + us.length := by
  induction us generalizing s with
  | nil => simp [createMany]
  | cons u us ih =>
    have hg := hok u (List.mem_cons_self u us)
    have hcfg := uploadRoute_preserves_config s (some u.1) u.2.1 u.2.2 false false
    have hstep := uploadRoute_ok_rows_length s u.1 u.2.1 u.2.2 hg
    have hok2 : ∀ v ∈ us,
        uploadGate ((uploadRoute s (some u.1) u.2.1 u.2.2 false false).2).allowedMimeTypes
          v.1.mimetype
          ((uploadRoute s (some u.1) u.2.1 u.2.2 false false).2).maxFileSize
          v.1.bytes.length = FileGate.ok := by
      intro v hv
      rw [hcfg.1, hcfg.2]
      exact hok v (List.mem_cons_of_mem u hv)
    rw [createMany, ih _ hok2, hstep]
    simp only [List.length_cons]
    omega

/-- C8: `GET /files` returns every metadata row, ordered newest first:
the listing is a permutation of the rows (hence has their exact number)
sorted by `upload_timestamp` descending, and every fault-free successful
create grows the row count by exactly one, so `N` creates with no
intervening removes yield exactly `N` records. -/
theorem list_newest_first (rows : List BlobRow) (s : ServerState)
    (us : List (UploadFile × Nat × String))
    (hok : ∀ u ∈ us, uploadGate s.allowedMimeTypes u.1.mimetype s.maxFileSize
      u.1.bytes.length = FileGate.ok) :
    List.Perm (getAllBlobs rows) rows
    ∧ List.Sorted tsGe (getAllBlobs rows)
    ∧ (getFilesRoute s false).1 = FilesOutcome.ok (getAllBlobs s.rows)
    ∧ (createMany s us).rows.length = s.rows.length + us.length :=
  ⟨List.perm_insertionSort tsGe rows, List.sorted_insertionSort tsGe rows, rfl,
   createMany_rows_length s us hok⟩

/-- C8 witness: the one-row listing and a single create on the fresh
state. -/
theorem list_newest_first_witness :
    List.Perm (getAllBlobs [storedRow]) [storedRow]
    ∧ List.Sorted tsGe (getAllBlobs [storedRow])
    ∧ (getFilesRoute freshState false).1 = FilesOutcome.ok (getAllBlobs freshState.rows)
    ∧ (createMany freshState [(fileA, 101, "2025-06-16T00:00:02.000Z")]).rows.length
      = freshState.rows.length + [(fileA, 101, "2025-06-16T00:00:02.000Z")].length :=
  list_newest_first [storedRow] freshState [(fileA, 101, "2025-06-16T00:00:02.000Z")]
    (by decide)

/-! ## Helpers for the traversal claim: digits of a decimal timestamp -/

theorem digitChar_isDigit (m : Nat) (h : m < 10) : (Nat.digitChar m).isDigit = true := by
  interval_cases m <;> decide

theorem toDigitsCore_digits (fuel : Nat) :
    ∀ (n : Nat) (acc : List Char), (∀ c ∈ acc, c.isDigit = true) →
      ∀ c ∈ Nat.toDigitsCore 10 fuel n acc, c.isDigit = true := by
  induction fuel with
  | zero =>
    intro n acc hacc c hc
    rw [Nat.toDigitsCore] at hc
    exact hacc c hc
  | succ fuel ih =>
    intro n acc hacc c hc
    simp only [Nat.toDigitsCore] at hc
    by_cases h10 : n / 10 = 0
    · rw [if_pos h10] at hc
      rcases List.mem_cons.mp hc with h | h
      · subst h
        exact digitChar_isDigit _ (Nat.mod_lt _ (by norm_num))
      · exact hacc c h
    · rw [if_neg h10] at hc
      refine ih (n / 10) _ ?_ c hc
      intro c2 hc2
      rcases List.mem_cons.mp hc2 with h | h
      · subst h
        exact digitChar_isDigit _ (Nat.mod_lt _ (by norm_num))
      · exact hacc c2 h

theorem toDigitsCore_ne_nil (fuel : Nat) :
    ∀ (n : Nat) (acc : List Char), (acc = [] → 0 < fuel) →
      Nat.toDigitsCore 10 fuel n acc ≠ [] := by
  induction fuel with
  | zero =>
    intro n acc h
    rw [Nat.toDigitsCore]
    intro he
    exact absurd (h he) (by omega)
  | succ fuel ih =>
    intro n acc h
    simp only [Nat.toDigitsCore]
    by_cases h10 : n / 10 = 0
    · rw [if_pos h10]
      exact List.cons_ne_nil _ _
    · rw [if_neg h10]
      exact ih (n / 10) _ (fun hc => absurd hc (List.cons_ne_nil _ _))

theorem repr_data_digits (t : Nat) : ∀ c ∈ (Nat.repr t).data, c.isDigit = true := by
  intro c hc
  have h : (Nat.repr t).data = Nat.toDigitsCore 10 (t + 1) t [] := rfl
  rw [h] at hc
  exact toDigitsCore_digits (t + 1) t [] (fun c2 hc2 => absurd hc2 (List.not_mem_nil c2)) c hc

theorem repr_data_ne_nil (t : Nat) : (Nat.repr t).data ≠ [] := by
  have h : (Nat.repr t).data = Nat.toDigitsCore 10 (t + 1) t [] := rfl
  rw [h]
  exact toDigitsCore_ne_nil (t + 1) t [] (fun _ => Nat.succ_pos t)

/-! ## Helpers for the traversal claim: the derived name has no separator -/

theorem lastSegmentChars_no_slash (cs : List Char) :
    ∀ c ∈ lastSegmentChars cs, c ≠ '/' := by
  intro c hc
  unfold lastSegmentChars at hc
  rw [List.mem_reverse] at hc
  have h := List.mem_takeWhile_imp hc
  simpa using h

theorem extnameChars_sub (cs : List Char) :
    ∀ c ∈ extnameChars cs, c = '.' ∨ c ∈ lastSegmentChars cs := by
  intro c hc
  simp only [extnameChars] at hc
  split at hc
  · exact absurd hc (List.not_mem_nil c)
  · split at hc
    · rcases List.mem_cons.mp hc with h | h
      · exact Or.inl h
      · right
        rw [List.mem_reverse] at h
        have h2 : c ∈ (lastSegmentChars cs).reverse :=
          ( List.takeWhile_prefix _).sublist.subset h
        rw [List.mem_reverse] at h2
        exact h2
    · exact absurd hc (List.not_mem_nil c)

theorem extnameChars_no_slash (cs : List Char) : ∀ c ∈ extnameChars cs, c ≠ '/' := by
  intro c hc
  rcases extnameChars_sub cs c hc with h | h
  · subst h
    decide
  · exact lastSegmentChars_no_slash cs c h

theorem data_append_str (s t : String) : (s ++ t).data = s.data ++ t.data := by
  cases s
  cases t
  rfl

theorem deriveStoredName_data (now : Nat) (nm : String) :
    (deriveStoredName now nm).data = (Nat.repr now).data ++ extnameChars nm.data := by
  unfold deriveStoredName extname
  rw [data_append_str]

theorem deriveStoredName_no_slash (now : Nat) (nm : String) :
    ∀ c ∈ (deriveStoredName now nm).data, c ≠ '/' := by
  intro c hc
  rw [deriveStoredName_data] at hc
  rcases List.mem_append.mp hc with h | h
  · have hd := repr_data_digits now c h
    intro he
    subst he
    exact absurd hd (by decide)
  · exact extnameChars_no_slash nm.data c h

theorem deriveStoredName_head (now : Nat) (nm : String) :
    ∃ c rest, (deriveStoredName now nm).data = c :: rest ∧ c.isDigit = true := by
  rcases h : (Nat.repr now).data with _ | ⟨c0, rest0⟩
  · exact absurd h (repr_data_ne_nil now)
  · refine ⟨c0, rest0 ++ extnameChars nm.data, ?_, ?_⟩
    · rw [deriveStoredName_data, h]
      rfl
    · exact repr_data_digits now c0 (by rw [h]; exact List.mem_cons_self _ _)

theorem deriveStoredName_ne_dots (now : Nat) (nm : String) :
    deriveStoredName now nm ≠ ""
    ∧ deriveStoredName now nm ≠ "."
    ∧ deriveStoredName now nm ≠ ".." := by
  obtain ⟨c, rest, hdata, hdig⟩ := deriveStoredName_head now nm
  refine ⟨?_, ?_, ?_⟩ <;> intro he <;> rw [he] at hdata
  · exact List.noConfusion (show ([] : List Char) = c :: rest from hdata)
  · have h2 : ['.'] = c :: rest := hdata
    injection h2 with h3 _
    rw [← h3] at hdig
    exact absurd hdig (by decide)
  · have h2 : ['.', '.'] = c :: rest := hdata
    injection h2 with h3 _
    rw [← h3] at hdig
    exact absurd hdig (by decide)

/-- C9 counterexample: a client who names the file exactly like the decimal
upload millisecond receives that very string back as the stored name: with
`Date.now() = 1727654321000` and original name `1727654321000` (no
extension) the derived stored name IS the original filename verbatim. -/
theorem derive_verbatim_counterexample :
    deriveStoredName 1727654321000 "1727654321000" = "1727654321000" := by
  decide

/-- C9 (amended): the derived stored name depends on the original filename
only through its `path.extname` extension and consists of the timestamp
digits followed by that extension, so it contains no path separator, is not
`.`, `..` or empty, differs from every original name containing a
separator, and the physical file path is the storage directory joined with
exactly this one name — the original name can coincide with the stored name
only in the freak case that it equals the timestamp digits plus its own
extension. -/
theorem derive_defends_traversal (dir : String) (now : Nat) (nm : String) :
    (∀ c ∈ (deriveStoredName now nm).data, c ≠ '/')
    ∧ deriveStoredName now nm ≠ ""
    ∧ deriveStoredName now nm ≠ "."
    ∧ deriveStoredName now nm ≠ ".."
    ∧ (∀ nm2, extname nm = extname nm2 →
        deriveStoredName now nm = deriveStoredName now nm2)
    ∧ ((∃ c ∈ nm.data, c = '/') → deriveStoredName now nm ≠ nm)
    ∧ storedFilePath dir now nm = dir ++ "/" ++ deriveStoredName now nm := by
  obtain ⟨hne, hdot, hdots⟩ := deriveStoredName_ne_dots now nm
  refine ⟨deriveStoredName_no_slash now nm, hne, hdot, hdots, ?_, ?_, rfl⟩
  · intro nm2 h
    unfold deriveStoredName
    rw [h]
  · rintro ⟨c, hc, rfl⟩ heq
    have h2 : '/' ∈ (deriveStoredName now nm).data := by
      rw [heq]
      exact hc
    exact deriveStoredName_no_slash now nm '/' h2 rfl

/-- C9 witness: the crafted traversal name `../../etc/passwd`. -/
theorem derive_defends_traversal_witness :
    (∀ c ∈ (deriveStoredName 1727654321000 "../../etc/passwd").data, c ≠ '/')
    ∧ deriveStoredName 1727654321000 "../../etc/passwd" ≠ ""
    ∧ deriveStoredName 1727654321000 "../../etc/passwd" ≠ "."
    ∧ deriveStoredName 1727654321000 "../../etc/passwd" ≠ ".."
    ∧ (∀ nm2, extname "../../etc/passwd" = extname nm2 →
        deriveStoredName 1727654321000 "../../etc/passwd"
          = deriveStoredName 1727654321000 nm2)
    ∧ ((∃ c ∈ ("../../etc/passwd" : String).data, c = '/') →
        deriveStoredName 1727654321000 "../../etc/passwd" ≠ "../../etc/passwd")
    ∧ storedFilePath "uploads" 1727654321000 "../../etc/passwd"
      = "uploads" ++ "/" ++ deriveStoredName 1727654321000 "../../etc/passwd" :=
  derive_defends_traversal "uploads" 1727654321000 "../../etc/passwd"

end EasyBlob
